import Mathlib

/-!
Verification development for the mnemosyne-rs deduplication core.

The Rust source is shallowly embedded as follows:

- Absolute instants (Rust SystemTime) are natural numbers counting ticks
  since the epoch; durations are natural numbers of ticks.  For the
  DynamoDB attribute model a tick is one millisecond, matching the
  as_millis encoding of startedAt and completedAt (the expiresOn
  attribute counts whole seconds, i.e. 1000 ticks).
- The classifier Process::status in src/model.rs calls SystemTime::now()
  twice, once inside Process::is_expired and once inside
  Process::is_timeout.  The embedding makes those two clock samples
  explicit parameters (nowE for the expiry sample, nowT for the timeout
  sample) so that the dependency of the result on the sampled instants
  can be stated.
- Fallible operations return Except Error.  The message strings carried
  by the Rust error variants are abstracted away; only the variant is
  modelled.
- The DynamoDB table is modelled as an association list from the
  composite key (id, processorId) to an attribute record, and the
  conditional-update expression SET startedAt = if_not_exists(...)
  with ReturnValue ALL_OLD, the completion update, and the delete are
  given their documented single-operation semantics.
- Effectful coordinator code is embedded as explicit state passing over
  that store.  Sleeping and clock reads inside the poll loop are
  environment inputs: each loop iteration consumes one observation
  holding the instant seen after the sleep and the record returned by
  the re-issued claim.
- The f64 arithmetic of the backoff delay (multiplier.powi(attempt),
  Duration::from_secs_f64) is modelled as exact rational arithmetic
  truncated to a whole number of ticks, following the nanosecond
  truncation the code performs.
-/

namespace Mnemosyne

/-- Error taxonomy from src/error.rs.  Each Rust variant carrying a
message string is modelled by a bare constructor; the message text is
irrelevant to the protocol. -/
inductive Error : Type where
  | dynamoDb : Error
  | encoding : Error
  | decoding : Error
  | timeout : Error
  | expired : Error
  | internal : Error
deriving DecidableEq, Repr

/-- ProcessStatus from src/model.rs: the five lifecycle states. -/
inductive ProcessStatus (A : Type) : Type where
  | notStarted : ProcessStatus A
  | running : ProcessStatus A
  | completed : A → ProcessStatus A
  | timeout : ProcessStatus A
  | expired : ProcessStatus A
deriving DecidableEq, Repr

/-- Process record from src/model.rs.  The Expiration wrapper around a
SystemTime is collapsed into the bare instant it holds; instants are
ticks since the epoch. -/
structure Process (Id Pid A : Type) : Type where
  id : Id
  processor_id : Pid
  started_at : Nat
  completed_at : Option Nat
  expires_on : Option Nat
  memoized : Option A
deriving DecidableEq, Repr

namespace Process

variable {Id Pid A : Type}

/-- Process::is_completed: completed_at is set. -/
def is_completed (p : Process Id Pid A) : Bool :=
  p.completed_at.isSome

/-- Process::is_expired composed with Expiration::is_expired.  The Rust
code samples SystemTime::now() inside Expiration::is_expired; the
sampled instant is the explicit parameter now. -/
def is_expired (p : Process Id Pid A) (now : Nat) : Bool :=
  match p.expires_on with
  | some e => decide (e ≤ now)
  | none => false

/-- Process::is_timeout.  Returns false for completed records; otherwise
true when now.duration_since(started_at) succeeds (started_at ≤ now)
and the elapsed time is at least max_processing_time.  The Rust code
samples SystemTime::now() here; the sampled instant is the parameter
now. -/
def is_timeout (p : Process Id Pid A) (now maxProcessingTime : Nat) : Bool :=
  if p.is_completed then false
  else decide (p.started_at ≤ now) && decide (maxProcessingTime ≤ now - p.started_at)

/-- Tail of Process::status after the completed check: expired, then
timeout, then running. -/
def statusChecks (p : Process Id Pid A) (nowE nowT maxProcessingTime : Nat) :
    ProcessStatus A :=
  if p.is_expired nowE then .expired
  else if p.is_timeout nowT maxProcessingTime then .timeout
  else .running

/-- Process::status from src/model.rs.  nowE is the clock instant the
code samples inside is_expired and nowT the instant it samples inside
is_timeout (the Rust method takes no instant argument and reads the
system clock at those two points). -/
def status (p : Process Id Pid A) (nowE nowT maxProcessingTime : Nat) :
    ProcessStatus A :=
  match p.memoized with
  | some v =>
      if p.is_completed then .completed v
      else p.statusChecks nowE nowT maxProcessingTime
  | none => p.statusChecks nowE nowT maxProcessingTime

end Process

/-- Rendering of the derived-lifecycle-state definition in the spec as a
pure function of the record, one current instant, and
max_processing_time: Completed when memoized and completed_at are both
set, else Expired when expires_on is set and has elapsed, else Timeout
when not completed and now minus started_at is at least
max_processing_time (read over the integers), else Running.  Used to
compare the implementation classifier, which samples the clock itself,
against the single-instant function the spec describes. -/
def statusSingleInstant {Id Pid A : Type} (p : Process Id Pid A)
    (now maxProcessingTime : Nat) : ProcessStatus A :=
  match p.memoized, p.completed_at with
  | some v, some _ => .completed v
  | _, _ =>
      match p.expires_on with
      | some e =>
          if e ≤ now then .expired
          else if p.completed_at = none ∧
              (maxProcessingTime : ℤ) ≤ (now : ℤ) - (p.started_at : ℤ) then .timeout
          else .running
      | none =>
          if p.completed_at = none ∧
              (maxProcessingTime : ℤ) ≤ (now : ℤ) - (p.started_at : ℤ) then .timeout
          else .running

/-- PollStrategy from src/model.rs.  The f64 multiplier is modelled as
an exact rational. -/
inductive PollStrategy : Type where
  | Linear : (delay : Nat) → (max_duration : Nat) → PollStrategy
  | Backoff : (base_delay : Nat) → (multiplier : ℚ) → (max_duration : Nat) → PollStrategy
deriving DecidableEq, Repr

namespace PollStrategy

/-- PollStrategy::linear: constructs the Linear variant with the given
fields and nothing else. -/
def linear (delay max_duration : Nat) : PollStrategy :=
  .Linear delay max_duration

/-- PollStrategy::backoff: constructs the Backoff variant with the given
fields and nothing else. -/
def backoff (base_delay : Nat) (multiplier : ℚ) (max_duration : Nat) : PollStrategy :=
  .Backoff base_delay multiplier max_duration

/-- PollStrategy::max_duration. -/
def max_duration : PollStrategy → Nat
  | .Linear _ md => md
  | .Backoff _ _ md => md

end PollStrategy

/-- Result of the dispatch performed by try_start_process on the claim
result: either the caller is the runner, or a memoized value is
returned, or the coordinator enters the poll loop
(poll_for_completion). -/
inductive StartResult (A : Type) : Type where
  | new : StartResult A
  | duplicate : A → StartResult A
  | poll : StartResult A
deriving DecidableEq, Repr

/-- The match on ProcessStatus inside try_start_process in
src/mnemosyne.rs: Completed yields Duplicate with the memoized value,
Expired and Timeout yield New, Running enters the poll loop, and the
defensive NotStarted arm yields New. -/
def dispatchStatus {A : Type} : ProcessStatus A → StartResult A
  | .completed v => .duplicate v
  | .expired => .new
  | .timeout => .new
  | .running => .poll
  | .notStarted => .new

/-- Variant of dispatchStatus whose NotStarted arm is an arbitrary
parameter, used to show that arm is dead code whenever the status came
from the classifier. -/
def dispatchStatusWith {A : Type} (alt : StartResult A) : ProcessStatus A → StartResult A
  | .completed v => .duplicate v
  | .expired => .new
  | .timeout => .new
  | .running => .poll
  | .notStarted => alt

/-- Result of the poll loop: the peer finished and its value is
inherited, or the caller takes over as the runner. -/
inductive PollResult (A : Type) : Type where
  | new : PollResult A
  | duplicate : A → PollResult A
deriving DecidableEq, Repr

/-- The match on ProcessStatus inside poll_for_completion in
src/mnemosyne.rs: Completed returns Duplicate, Expired and Timeout
return New, Running continues the loop (none), and the NotStarted arm
returns New. -/
def pollClassify {A : Type} : ProcessStatus A → Option (PollResult A)
  | .completed v => some (.duplicate v)
  | .expired => some .new
  | .timeout => some .new
  | .running => none
  | .notStarted => some .new

/-- Variant of pollClassify whose NotStarted arm is an arbitrary
parameter, used to show that arm is dead code whenever the status came
from the classifier. -/
def pollClassifyWith {A : Type} (alt : Option (PollResult A)) :
    ProcessStatus A → Option (PollResult A)
  | .completed v => some (.duplicate v)
  | .expired => some .new
  | .timeout => some .new
  | .running => none
  | .notStarted => alt

/-- A stored DynamoDB item for one (id, processorId) row, from
src/dynamodb.rs.  Identifier and payload serialization is out of scope,
so the id, processorId and memoized attributes hold the values
themselves; startedAt and completedAt count milliseconds since the
epoch and expiresOn counts whole seconds since the epoch, as the code
writes them. -/
structure Item (Id Pid A : Type) : Type where
  idAttr : Option Id
  processorIdAttr : Option Pid
  startedAt : Option Nat
  completedAt : Option Nat
  expiresOn : Option Nat
  memoized : Option A
deriving DecidableEq, Repr

/-- decode_process from src/dynamodb.rs: requires the id, processorId
and startedAt attributes, maps completedAt through from_millis and
expiresOn through from_secs (one second is 1000 millisecond ticks). -/
def decode_process {Id Pid A : Type} (it : Item Id Pid A) :
    Except Error (Process Id Pid A) :=
  match it.idAttr with
  | none => .error .decoding
  | some i =>
      match it.processorIdAttr with
      | none => .error .decoding
      | some pid =>
          match it.startedAt with
          | none => .error .decoding
          | some s =>
              .ok { id := i, processor_id := pid, started_at := s,
                    completed_at := it.completedAt,
                    expires_on := it.expiresOn.map (· * 1000),
                    memoized := it.memoized }

/-- The update applied to a row by complete_process in src/dynamodb.rs:
SET completedAt = now, memoized = value and, when a ttl is supplied,
expiresOn = (now + ttl) truncated to whole seconds. -/
def complete_item {Id Pid A : Type} (it : Item Id Pid A) (now : Nat)
    (ttl : Option Nat) (v : A) : Item Id Pid A :=
  { it with
    completedAt := some now
    memoized := some v
    expiresOn :=
      match ttl with
      | some t => some ((now + t) / 1000)
      | none => it.expiresOn }

/-- The backing table: an association list from the composite key
(id, processorId) to the stored item. -/
def Store (Id Pid A : Type) : Type := List ((Id × Pid) × Item Id Pid A)

variable {Id Pid A : Type} [DecidableEq Id] [DecidableEq Pid]

/-- Look up the row with the given composite key. -/
def lookupRow (st : Store Id Pid A) (k : Id × Pid) : Option (Item Id Pid A) :=
  (st.find? (fun e => decide (e.1 = k))).map (·.2)

/-- Remove every row with the given composite key. -/
def removeRow (st : Store Id Pid A) (k : Id × Pid) : Store Id Pid A :=
  st.filter (fun e => !decide (e.1 = k))

/-- Install the given item under the given composite key, replacing any
previous row. -/
def putRow (st : Store Id Pid A) (k : Id × Pid) (it : Item Id Pid A) :
    Store Id Pid A :=
  (k, it) :: removeRow st k

/-- An item as freshly created by the conditional claim on an absent
row: DynamoDB materialises the key attributes and the update writes
startedAt = now. -/
def freshItem (k : Id × Pid) (now : Nat) : Item Id Pid A :=
  { idAttr := some k.1, processorIdAttr := some k.2, startedAt := some now,
    completedAt := none, expiresOn := none, memoized := none }

/-- start_processing_update from src/dynamodb.rs: one conditional
update SET startedAt = if_not_exists(startedAt, now) with ReturnValue
ALL_OLD.  A missing row is created with startedAt = now and None is
returned; an existing row keeps its startedAt (if_not_exists) and its
previous contents are returned. -/
def start_processing_update (st : Store Id Pid A) (k : Id × Pid) (now : Nat) :
    Option (Item Id Pid A) × Store Id Pid A :=
  match lookupRow st k with
  | none => (none, putRow st k (freshItem k now))
  | some it =>
      (some it, putRow st k { it with startedAt := some (it.startedAt.getD now) })

/-- complete_process from src/dynamodb.rs at the store level: an
unconditional update (upsert) applying complete_item to the existing
row, or to a fresh row carrying only the key attributes when the row is
absent. -/
def complete_process (st : Store Id Pid A) (k : Id × Pid) (now : Nat)
    (ttl : Option Nat) (v : A) : Store Id Pid A :=
  let base :=
    (lookupRow st k).getD
      { idAttr := some k.1, processorIdAttr := some k.2, startedAt := none,
        completedAt := none, expiresOn := none, memoized := none }
  putRow st k (complete_item base now ttl v)

/-- invalidate_process from src/dynamodb.rs: an unconditional delete of
the composite key; deleting an absent row is not an error. -/
def invalidate_process (st : Store Id Pid A) (k : Id × Pid) : Store Id Pid A :=
  removeRow st k

/-- try_start_process from src/mnemosyne.rs over the store model.
nowClaim is the instant sampled before the claim; nowE and nowT are the
instants the classifier samples inside is_expired and is_timeout.  The
claim result is decoded (the DynamoDB backend decodes ALL_OLD
attributes) and its status dispatched: None yields New, Completed
yields Duplicate, Expired and Timeout yield New, Running enters the
poll loop, NotStarted yields New. -/
def try_start_process (st : Store Id Pid A) (k : Id × Pid)
    (nowClaim nowE nowT maxProcessingTime : Nat) :
    Except Error (StartResult A) × Store Id Pid A :=
  let r := start_processing_update st k nowClaim
  match r.1 with
  | none => (.ok .new, r.2)
  | some it =>
      match decode_process it with
      | .error e => (.error e, r.2)
      | .ok p => (.ok (dispatchStatus (p.status nowE nowT maxProcessingTime)), r.2)

/-- The delay computation at the top of each poll_for_completion
iteration: a Linear strategy always waits its configured delay; a
Backoff strategy waits base_delay times multiplier to the power of the
attempt counter, the real-valued product truncated to a whole number of
ticks. -/
def poll_delay : PollStrategy → Nat → Nat
  | .Linear d _, _ => d
  | .Backoff b m _, attempt => (⌊(b : ℚ) * m ^ attempt⌋).toNat

/-- One observation consumed by a poll_for_completion iteration: the
instant SystemTime::now() returns after the sleep, the (already
decoded) record the re-issued claim returns, and the two instants the
classifier samples when a record is present. -/
structure PollObs (Id Pid A : Type) : Type where
  nowAfterSleep : Nat
  claim : Option (Process Id Pid A)
  nowE : Nat
  nowT : Nat
deriving DecidableEq, Repr

/-- The loop body of poll_for_completion from src/mnemosyne.rs.  Each
iteration sleeps (the resulting clock reading is the observation's
nowAfterSleep), increments the attempt counter, errors like the Rust
code if the clock reads before start_time, returns New when the elapsed
wait is at least the strategy's max_duration, and otherwise classifies
the record returned by the re-issued claim: an absent record returns
New and a present one is classified, with Completed returning
Duplicate, Expired and Timeout returning New, and Running continuing.
An exhausted observation list (the loop would keep polling) yields
none. -/
def poll_for_completion (strat : PollStrategy) (maxProcessingTime start : Nat) :
    List (PollObs Id Pid A) → Nat → Except Error (Option (PollResult A))
  | [], _ => .ok none
  | obs :: rest, attempt =>
      if obs.nowAfterSleep < start then .error .internal
      else if strat.max_duration ≤ obs.nowAfterSleep - start then .ok (some .new)
      else
        match obs.claim with
        | none => .ok (some .new)
        | some p =>
            match pollClassify (p.status obs.nowE obs.nowT maxProcessingTime) with
            | some r => .ok (some r)
            | none => poll_for_completion strat maxProcessingTime start rest (attempt + 1)

/-- The final outcome try_start_process hands to once: New with the
completion continuation, or Duplicate with the memoized value. -/
inductive Outcome (A : Type) : Type where
  | new : Outcome A
  | duplicate : A → Outcome A
deriving DecidableEq, Repr

/-- Everything once does after try_start_process returns, from
src/mnemosyne.rs: the call result, the store after the call, the value
passed to the completion continuation (none when it was never invoked),
and whether invalidate was invoked. -/
structure OnceRes (Id Pid A : Type) : Type where
  result : Except Error A
  store : Store Id Pid A
  completedWith : Option A
  invalidated : Bool

/-- The match on the outcome inside once in src/mnemosyne.rs: a
Duplicate outcome returns its value and touches nothing; a New outcome
runs f, propagates its error without any further store operation, and
on success v invokes the completion continuation (which performs
complete_process with the configured ttl at the instant it samples) and
returns v.  once never calls invalidate. -/
def once_from_outcome (st : Store Id Pid A) (k : Id × Pid)
    (nowComplete : Nat) (ttl : Option Nat) (outcome : Outcome A)
    (f : Except Error A) : OnceRes Id Pid A :=
  match outcome with
  | .duplicate v => ⟨.ok v, st, none, false⟩
  | .new =>
      match f with
      | .error e => ⟨.error e, st, none, false⟩
      | .ok v => ⟨.ok v, complete_process st k nowComplete ttl v, some v, false⟩

/-- Deleting a key makes it unfindable. -/
theorem lookupRow_removeRow (st : Store Id Pid A) (k : Id × Pid) :
    lookupRow (removeRow st k) k = none := by
  induction st with
  | nil => rfl
  | cons e rest ih =>
      simp only [removeRow, List.filter_cons] at *
      by_cases h : e.1 = k
      · simpa [h] using ih
      · simpa [lookupRow, List.find?_cons, h] using ih

/-- Deleting a key twice is the same as deleting it once. -/
theorem removeRow_removeRow (st : Store Id Pid A) (k : Id × Pid) :
    removeRow (removeRow st k) k = removeRow st k := by
  simp [removeRow, List.filter_filter]

/-- C2: the classifier checks states in the priority order Completed,
then Expired, then Timeout, then Running: a record with memoized
present and completed_at set is classified Completed with that value at
every pair of sampled instants (so even when its expires_on has elapsed
and even when the timeout condition holds), and an uncompleted record
whose expires_on has elapsed is classified Expired at every timeout
sample (so even when it also satisfies the timeout condition); the
remaining checks are Timeout and then Running. -/
theorem status_priority_order (p : Process Id Pid A) (v : A) (nE nT m : Nat) :
    (p.memoized = some v → p.completed_at.isSome = true →
       p.status nE nT m = .completed v)
    ∧ (p.completed_at = none → p.is_expired nE = true →
       p.status nE nT m = .expired)
    ∧ (p.completed_at = none → p.is_expired nE = false → p.is_timeout nT m = true →
       p.status nE nT m = .timeout)
    ∧ (p.completed_at = none → p.is_expired nE = false → p.is_timeout nT m = false →
       p.status nE nT m = .running) := by
  refine ⟨?_, ?_, ?_, ?_⟩
  · intro hm hc
    simp [Process.status, hm, Process.is_completed, hc]
  all_goals intro hc
  all_goals have hic : p.is_completed = false := by simp [Process.is_completed, hc]
  · intro he
    cases hm : p.memoized <;>
      simp [Process.status, hm, hic, Process.statusChecks, he]
  · intro he ht
    cases hm : p.memoized <;>
      simp [Process.status, hm, hic, Process.statusChecks, he, ht]
  · intro he ht
    cases hm : p.memoized <;>
      simp [Process.status, hm, hic, Process.statusChecks, he, ht]

/-- C2 witness: a completed record that is also past its TTL and past
its timeout is Completed; an uncompleted record past both its TTL and
its timeout is Expired. -/
theorem status_priority_order_witness :
    Process.status (⟨0, 0, 0, some 50, some 10, some 7⟩ : Process Nat Nat Nat)
      1000 1000 5 = .completed 7
    ∧ Process.status (⟨0, 0, 0, none, some 10, none⟩ : Process Nat Nat Nat)
      1000 1000 5 = .expired := by
  constructor
  · exact (status_priority_order ⟨0, 0, 0, some 50, some 10, some 7⟩ 7 1000 1000 5).1
      rfl rfl
  · exact (status_priority_order ⟨0, 0, 0, none, some 10, none⟩ 7 1000 1000 5).2.1
      rfl rfl

/-- C3 counterexample: the Rust classifier takes no instant argument
and samples the system clock itself, once inside is_expired and once
inside is_timeout.  With the record below (uncompleted, expires_on = 5,
started_at = 0) and max_processing_time = 100, an execution whose two
samples read 3 and 200 classifies the record as Timeout, yet the
single-instant function the claim describes yields Running at instant 3
and Expired at instant 200 (as does the implementation when both its
samples coincide at those instants): the result is not a function of
the record, one current instant, and max_processing_time. -/
theorem status_samples_clock_counterexample :
    Process.status (⟨0, 0, 0, none, some 5, none⟩ : Process Nat Nat Nat) 3 200 100
      = .timeout
    ∧ statusSingleInstant (⟨0, 0, 0, none, some 5, none⟩ : Process Nat Nat Nat) 3 100
      = .running
    ∧ statusSingleInstant (⟨0, 0, 0, none, some 5, none⟩ : Process Nat Nat Nat) 200 100
      = .expired
    ∧ Process.status (⟨0, 0, 0, none, some 5, none⟩ : Process Nat Nat Nat) 3 3 100
      = .running
    ∧ Process.status (⟨0, 0, 0, none, some 5, none⟩ : Process Nat Nat Nat) 200 200 100
      = .expired := by
  refine ⟨rfl, ?_, ?_, rfl, rfl⟩ <;> decide

/-- C3 amended: the classifier is a deterministic function of the
record, max_processing_time, and the two clock instants it samples
internally, but it reads the system clock itself rather than taking the
current instant as an input; whenever its two samples coincide it
computes exactly the pure single-instant function described by the
spec. -/
theorem status_coincident_samples_eq_single_instant (p : Process Id Pid A)
    (now m : Nat) :
    p.status now now m = statusSingleInstant p now m := by
  unfold Process.status statusSingleInstant Process.statusChecks
    Process.is_expired Process.is_timeout Process.is_completed
  cases hm : p.memoized <;> cases hc : p.completed_at <;> cases he : p.expires_on <;>
    simp <;> split_ifs <;> first | rfl | omega

/-- C10: for every record and every pair of sampled instants the
classifier returns Completed, Expired, Timeout or Running and never
NotStarted; consequently the ProcessStatus::NotStarted match arms in
try_start_process and in the poll loop are dead whenever a record was
returned by the claim: replacing what those arms return changes
nothing. -/
theorem status_never_not_started (p : Process Id Pid A) (nE nT m : Nat)
    (a : StartResult A) (b : Option (PollResult A)) :
    p.status nE nT m ≠ .notStarted
    ∧ dispatchStatusWith a (p.status nE nT m) = dispatchStatus (p.status nE nT m)
    ∧ pollClassifyWith b (p.status nE nT m) = pollClassify (p.status nE nT m) := by
  have h : p.status nE nT m ≠ .notStarted := by
    unfold Process.status Process.statusChecks
    cases p.memoized <;> split_ifs <;> simp
  refine ⟨h, ?_, ?_⟩ <;>
    cases hs : p.status nE nT m <;>
      simp_all [dispatchStatusWith, dispatchStatus, pollClassifyWith, pollClassify]

/-- C10 witness: the fresh record for key (0, 0) observed at instant 0
is not classified NotStarted, and replacing what the NotStarted arms of
the dispatch and of the poll classification return changes neither
result on it. -/
theorem status_never_not_started_witness :
    (Process.status (⟨0, 0, 0, none, none, none⟩ : Process Nat Nat Nat) 0 0 5
       ≠ .notStarted)
    ∧ dispatchStatusWith .poll
        (Process.status (⟨0, 0, 0, none, none, none⟩ : Process Nat Nat Nat) 0 0 5)
      = dispatchStatus
        (Process.status (⟨0, 0, 0, none, none, none⟩ : Process Nat Nat Nat) 0 0 5)
    ∧ pollClassifyWith none
        (Process.status (⟨0, 0, 0, none, none, none⟩ : Process Nat Nat Nat) 0 0 5)
      = pollClassify
        (Process.status (⟨0, 0, 0, none, none, none⟩ : Process Nat Nat Nat) 0 0 5) :=
  status_never_not_started ⟨0, 0, 0, none, none, none⟩ 0 0 5 .poll none

/-- C1: try_start_process dispatches on the claim result exactly as
specified: a claim returning no prior record yields New; a returned
record classified Completed yields Duplicate carrying that exact
memoized value; Expired and Timeout yield New (takeover); Running
enters the poll loop; NotStarted yields New. -/
theorem try_start_process_dispatch (st : Store Id Pid A) (k : Id × Pid)
    (nowClaim nE nT m : Nat) (it : Item Id Pid A) (p : Process Id Pid A) (v : A) :
    ((start_processing_update st k nowClaim).1 = none →
       (try_start_process st k nowClaim nE nT m).1 = .ok .new)
    ∧ ((start_processing_update st k nowClaim).1 = some it →
       decode_process it = .ok p →
       ((p.status nE nT m = .completed v →
           (try_start_process st k nowClaim nE nT m).1 = .ok (.duplicate v))
        ∧ (p.status nE nT m = .expired →
           (try_start_process st k nowClaim nE nT m).1 = .ok .new)
        ∧ (p.status nE nT m = .timeout →
           (try_start_process st k nowClaim nE nT m).1 = .ok .new)
        ∧ (p.status nE nT m = .running →
           (try_start_process st k nowClaim nE nT m).1 = .ok .poll)
        ∧ (p.status nE nT m = .notStarted →
           (try_start_process st k nowClaim nE nT m).1 = .ok .new))) := by
  constructor
  · intro h
    simp [try_start_process, h]
  · intro h hd
    refine ⟨?_, ?_, ?_, ?_, ?_⟩ <;> intro hs <;>
      simp [try_start_process, h, hd, hs, dispatchStatus]

/-- C1 witness: on the empty table the claim observes nothing and the
outcome is New; on a table holding a completed record the outcome is
Duplicate with the memoized value; on a table holding a fresh running
record the coordinator enters the poll loop. -/
theorem try_start_process_dispatch_witness :
    (try_start_process ([] : Store Nat Nat Nat) (1, 2) 10 10 10 5).1 = .ok .new
    ∧ (try_start_process
        [((1, 2), complete_item (freshItem (1, 2) 0) 4 (some 10) 7)]
        (1, 2) 10 10 10 5).1 = .ok (.duplicate 7)
    ∧ (try_start_process ([((1, 2), freshItem (1, 2) 0)] : Store Nat Nat Nat)
        (1, 2) 10 10 2 5).1 = .ok .poll := by
  refine ⟨?_, ?_, ?_⟩
  · exact (try_start_process_dispatch [] (1, 2) 10 10 10 5 (freshItem (1, 2) 0)
      ⟨1, 2, 0, none, none, none⟩ 7).1 rfl
  · exact ((try_start_process_dispatch
      [((1, 2), complete_item (freshItem (1, 2) 0) 4 (some 10) 7)]
      (1, 2) 10 10 10 5 (complete_item (freshItem (1, 2) 0) 4 (some 10) 7)
      ⟨1, 2, 0, some 4, some 0, some 7⟩ 7).2 (by decide) rfl).1 rfl
  · exact ((try_start_process_dispatch [((1, 2), freshItem (1, 2) 0)]
      (1, 2) 10 10 2 5 (freshItem (1, 2) 0)
      ⟨1, 2, 0, none, none, none⟩ 7).2 (by decide) rfl).2.2.2.1 rfl

/-- C4: inside once, a New outcome runs f; when f fails the error is
propagated to the caller unchanged, the completion continuation is not
invoked, invalidate is not invoked, and the store is left exactly as it
was; when f succeeds with v the completion continuation is invoked with
v (performing complete_process with the configured ttl) and once
returns v. -/
theorem once_error_propagation (st : Store Id Pid A) (k : Id × Pid)
    (nowC : Nat) (ttl : Option Nat) (f : Except Error A) (e : Error) (v : A) :
    (f = .error e →
       once_from_outcome st k nowC ttl .new f = ⟨.error e, st, none, false⟩)
    ∧ (f = .ok v →
       once_from_outcome st k nowC ttl .new f =
         ⟨.ok v, complete_process st k nowC ttl v, some v, false⟩) := by
  constructor <;> intro h <;> simp [once_from_outcome, h]

/-- C4 witness: a failing effect propagates its error and leaves the
empty store empty with no completion; a succeeding effect completes
with its value and returns it. -/
theorem once_error_propagation_witness :
    once_from_outcome ([] : Store Nat Nat Nat) (1, 2) 9 (some 10) .new
      (.error .timeout) = ⟨.error .timeout, [], none, false⟩
    ∧ once_from_outcome ([] : Store Nat Nat Nat) (1, 2) 9 (some 10) .new
      (.ok 7) = ⟨.ok 7, complete_process [] (1, 2) 9 (some 10) 7, some 7, false⟩ := by
  constructor
  · exact (once_error_propagation [] (1, 2) 9 (some 10) (.error .timeout)
      .timeout 7).1 rfl
  · exact (once_error_propagation [] (1, 2) 9 (some 10) (.ok 7) .timeout 7).2 rfl

/-- C5: in every iteration of the poll loop, after the sleep (whose
resulting clock reading is the observation) and for any value of the
attempt counter, when the elapsed time since the loop started is at
least the strategy's max_duration the loop returns New for every value
of the re-issued claim and of the remaining schedule, i.e. without
issuing another claim; and when max_duration is smaller than the
strategy's first delay and the sleep has advanced the clock by at least
that delay, the loop returns New after exactly this one sleep. -/
theorem poll_loop_gives_up_on_max_duration (strat : PollStrategy)
    (maxPt start attempt : Nat) (obs : PollObs Id Pid A)
    (rest : List (PollObs Id Pid A)) :
    (start ≤ obs.nowAfterSleep →
       strat.max_duration ≤ obs.nowAfterSleep - start →
       poll_for_completion strat maxPt start (obs :: rest) attempt
         = .ok (some .new))
    ∧ (start + poll_delay strat 0 ≤ obs.nowAfterSleep →
       strat.max_duration < poll_delay strat 0 →
       poll_for_completion strat maxPt start (obs :: rest) 0
         = .ok (some .new)) := by
  constructor
  · intro h1 h2
    simp [poll_for_completion, Nat.not_lt.mpr h1, h2]
  · intro h1 h2
    have hs : start ≤ obs.nowAfterSleep := le_trans (Nat.le_add_right _ _) h1
    have h2' : strat.max_duration ≤ obs.nowAfterSleep - start := by omega
    simp [poll_for_completion, Nat.not_lt.mpr hs, h2']

/-- C5 witness: with a linear strategy of delay 5 and max_duration 3
(max_duration smaller than the first delay), starting at instant 0 and
waking at instant 5, the loop returns New after the single sleep even
though the schedule would have allowed many more polls; and a generic
iteration waking at instant 100 with an arbitrary attempt counter also
returns New. -/
theorem poll_loop_gives_up_on_max_duration_witness :
    poll_for_completion (PollStrategy.Linear 5 3) 60 0
      ([⟨5, none, 0, 0⟩, ⟨999, none, 0, 0⟩] : List (PollObs Nat Nat Nat)) 0
      = .ok (some .new)
    ∧ poll_for_completion (PollStrategy.Linear 5 3) 60 0
      ([⟨100, some ⟨1, 2, 0, none, none, none⟩, 100, 100⟩] : List (PollObs Nat Nat Nat)) 4
      = .ok (some .new) := by
  constructor
  · exact (poll_loop_gives_up_on_max_duration (PollStrategy.Linear 5 3) 60 0 0
      ⟨5, none, 0, 0⟩ [⟨999, none, 0, 0⟩]).2 (by decide) (by decide)
  · exact (poll_loop_gives_up_on_max_duration (PollStrategy.Linear 5 3) 60 0 4
      ⟨100, some ⟨1, 2, 0, none, none, none⟩, 100, 100⟩ []).1 (by decide) (by decide)

/-- C6 counterexample: complete at now = 1500 ms with ttl = 0 (so
ttl ≥ 0 is supplied) writes completedAt = 1500 ms but truncates
expiresOn to whole seconds, and decoding the stored row yields
expires_on = 1000 ms, which is strictly before completed_at = 1500 ms
(1000 < 1500, refuting expires_on greater or equal completed_at) and
differs from now + ttl. -/
theorem complete_roundtrip_ttl_counterexample :
    decode_process (complete_item (freshItem (1, 2) 0 : Item Nat Nat Nat)
        1500 (some 0) 7)
      = .ok ⟨1, 2, 0, some 1500, some 1000, some 7⟩
    ∧ (1000 : Nat) < 1500 := ⟨rfl, by decide⟩

/-- C6 amended: complete_process with a supplied ttl writes
completedAt = now (milliseconds), memoized = value and
expiresOn = (now + ttl) truncated to whole seconds; decoding the stored
row returns completed_at = now, memoized = value and
expires_on = 1000 * ((now + ttl) / 1000), so the decoded expiry may
precede completed_at but by less than one second, while before the
truncation now + ttl ≥ now always holds. -/
theorem complete_roundtrip_truncation (it : Item Id Pid A) (i : Id) (pid : Pid)
    (s now ttl : Nat) (v : A) (h1 : it.idAttr = some i)
    (h2 : it.processorIdAttr = some pid) (h3 : it.startedAt = some s) :
    (complete_item it now (some ttl) v).completedAt = some now
    ∧ (complete_item it now (some ttl) v).memoized = some v
    ∧ (complete_item it now (some ttl) v).expiresOn = some ((now + ttl) / 1000)
    ∧ decode_process (complete_item it now (some ttl) v)
        = .ok ⟨i, pid, s, some now, some ((now + ttl) / 1000 * 1000), some v⟩
    ∧ now < (now + ttl) / 1000 * 1000 + 1000
    ∧ now ≤ now + ttl := by
  refine ⟨rfl, rfl, rfl, ?_, by omega, Nat.le_add_right _ _⟩
  simp [decode_process, complete_item, h1, h2, h3]

/-- C6 witness: completing the fresh row for key (1, 2) at
now = 1500 ms with ttl = 2500 ms stores expiresOn = 4 s, and the
decoded record has completed_at = 1500, expires_on = 4000 and the
stated bounds. -/
theorem complete_roundtrip_truncation_witness :
    (complete_item (freshItem (1, 2) 0 : Item Nat Nat Nat) 1500 (some 2500) 7).completedAt
      = some 1500
    ∧ (complete_item (freshItem (1, 2) 0 : Item Nat Nat Nat) 1500 (some 2500) 7).memoized
      = some 7
    ∧ (complete_item (freshItem (1, 2) 0 : Item Nat Nat Nat) 1500 (some 2500) 7).expiresOn
      = some 4
    ∧ decode_process (complete_item (freshItem (1, 2) 0 : Item Nat Nat Nat) 1500 (some 2500) 7)
      = .ok ⟨1, 2, 0, some 1500, some 4000, some 7⟩
    ∧ (1500 : Nat) < 4 * 1000 + 1000
    ∧ (1500 : Nat) ≤ 1500 + 2500 := by
  exact complete_roundtrip_truncation (freshItem (1, 2) 0) 1 2 0 1500 2500 7
    rfl rfl rfl

/-- C7 counterexample: PollStrategy construction performs no
validation: linear with delay = 0 (violating delay > 0, and with
max_duration 0) returns the Linear variant and exposes its
max_duration, and backoff with multiplier 1/2 (violating
multiplier ≥ 1) returns the Backoff variant, so violating argument
tuples do yield usable strategy values. -/
theorem poll_strategy_no_validation_counterexample :
    PollStrategy.linear 0 0 = PollStrategy.Linear 0 0
    ∧ (PollStrategy.linear 0 0).max_duration = 0
    ∧ PollStrategy.backoff 0 (1 / 2 : ℚ) 0 = PollStrategy.Backoff 0 (1 / 2 : ℚ) 0
    ∧ (PollStrategy.backoff 0 (1 / 2 : ℚ) 0).max_duration = 0 :=
  ⟨rfl, rfl, rfl, rfl⟩

/-- C7 amended: PollStrategy::linear and PollStrategy::backoff validate
nothing: for every argument tuple, including ones violating the
constraints the claim lists, they return the corresponding variant
unchanged, and both variants expose max_duration. -/
theorem poll_strategy_constructors_total (d md b mx : Nat) (m : ℚ) :
    PollStrategy.linear d md = PollStrategy.Linear d md
    ∧ (PollStrategy.linear d md).max_duration = md
    ∧ PollStrategy.backoff b m mx = PollStrategy.Backoff b m mx
    ∧ (PollStrategy.backoff b m mx).max_duration = mx :=
  ⟨rfl, rfl, rfl, rfl⟩

/-- C8: for every table state and composite key, invalidate_process
removes the row (and is idempotent, so deleting an absent row is
harmless), the subsequent claim observes no prior record, and
try_start_process after the invalidation yields New. -/
theorem invalidate_then_try_start_new (st : Store Id Pid A) (k : Id × Pid)
    (nowClaim nE nT m : Nat) :
    lookupRow (invalidate_process st k) k = none
    ∧ invalidate_process (invalidate_process st k) k = invalidate_process st k
    ∧ (start_processing_update (invalidate_process st k) k nowClaim).1 = none
    ∧ (try_start_process (invalidate_process st k) k nowClaim nE nT m).1
        = .ok .new := by
  have h := lookupRow_removeRow st k
  refine ⟨h, removeRow_removeRow st k, ?_, ?_⟩
  · simp [start_processing_update, invalidate_process, h]
  · simp [try_start_process, start_processing_update, invalidate_process, h]

/-- C9: the delay before attempt n of the poll loop is the constant
delay under a Linear strategy and base_delay times multiplier to the
power n (truncated to a whole number of ticks) under a Backoff
strategy; consequently a Backoff strategy with multiplier 1 produces
exactly the delay sequence of a Linear strategy with the same delay. -/
theorem poll_delay_formula (d b md n : Nat) (m : ℚ) :
    poll_delay (.Linear d md) n = d
    ∧ poll_delay (.Backoff b m md) n = (⌊(b : ℚ) * m ^ n⌋).toNat
    ∧ poll_delay (.Backoff b 1 md) n = poll_delay (.Linear b md) n := by
  refine ⟨rfl, rfl, ?_⟩
  simp [poll_delay]

end Mnemosyne
